import Mathlib

/-!
Shallow embedding of the rick-morty-devops pipeline
(`src/fetch_characters.py` and `src/app.py`) and proofs of the spec's
claims about it.

Modelling conventions:
* A Python dict field that may be absent is an `Option`; `none` models an
  absent key, so `d[k]` becomes `getKey`, which raises `KeyError` (the
  `PyError.keyError` constructor) when the key is missing.
* Fallible Python code becomes `Except PyError`.  The spec's error
  taxonomy maps onto the concrete exceptions the code raises:
  `FetchError` is `PyError.httpError` (from `response.raise_for_status()`),
  `MalformedResponseError` is `PyError.jsonDecodeError` (from
  `response.json()` on a non-JSON body) or a `KeyError` on the page-level
  keys `"results"` / `"info"` / `"next"`, and `MissingFieldError` is a
  `KeyError` on the record-level keys `"origin"` / `"name"` raised inside
  `filter_characters`.
* The upstream API is a function from (URL, query parameters) to an HTTP
  response; `fetch_all_characters` takes it as a parameter together with a
  fuel bound on the number of GET requests, returning `none` only when the
  fuel runs out before the `while url:` loop finishes.
-/

namespace RickMorty

/-- A Python sub-dict holding a single `name` key, used for both the
`origin` and the `location` sub-objects of a character record; `none`
models an absent `"name"` key. -/
structure NamedRef where
  name : Option String
deriving Repr, DecidableEq

/-- A character record as received from the upstream API, with the fields
the repository reads (`src/app.py` and `src/fetch_characters.py`); every
field is optional because upstream records are plain dicts. -/
structure Character where
  id : Option Int := none
  name : Option String := none
  status : Option String := none
  species : Option String := none
  gender : Option String := none
  origin : Option NamedRef := none
  location : Option NamedRef := none
  image : Option String := none
  episode : Option (List String) := none
  url : Option String := none
deriving Repr, DecidableEq

/-- The Python exceptions the pipeline can raise: `requests.HTTPError`
(carrying the response's status code and URL), a JSON decode error
(carrying the URL whose body failed to parse), and `KeyError` (carrying
the missing key). -/
inductive PyError where
  | httpError (status : Nat) (url : String)
  | jsonDecodeError (url : String)
  | keyError (key : String)
deriving Repr, DecidableEq

/-- Returns `true` for the errors the spec calls `MalformedResponseError`: a
non-JSON page body, or a page missing `"results"`, `"info"` or
`"info.next"`. -/
def PyError.isMalformedResponse : PyError → Bool
  | .jsonDecodeError _ => true
  | .keyError k => k = "results" || k = "info" || k = "next"
  | .httpError _ _ => false

/-- Returns `true` for the errors the spec calls `FetchError`: a non-success HTTP
status. -/
def PyError.isFetchError : PyError → Bool
  | .httpError _ _ => true
  | _ => false

/-- Returns `true` for the errors the spec calls `MissingFieldError`: a record
lacking the `"origin"` sub-object or its `"name"`. -/
def PyError.isMissingField : PyError → Bool
  | .keyError k => k = "origin" || k = "name"
  | _ => false

/-- Python `d[k]`: the value when the key is present, `KeyError k`
otherwise. -/
def getKey (v : Option α) (k : String) : Except PyError α :=
  match v with
  | none => .error (.keyError k)
  | some x => .ok x

/-- Containment of `needle` as a contiguous run inside a character list;
the computational core of Python's `sub in s` on strings. -/
def charsContain (needle : List Char) : List Char → Bool
  | [] => needle.isEmpty
  | c :: t => needle.isPrefixOf (c :: t) || charsContain needle t

/-- Python's `sub in s` on strings: substring containment,
case-sensitive. -/
def strContains (sub s : String) : Bool :=
  charsContain sub.data s.data

/-- The comprehension condition of `filter_characters`
(fetch_characters.py line 92): `"Earth" in character["origin"]["name"]`,
raising `KeyError` when `origin` or `origin.name` is absent. -/
def keepEarth (c : Character) : Except PyError Bool := do
  let o ← getKey c.origin "origin"
  let n ← getKey o.name "name"
  pure (strContains "Earth" n)

/-- Function `filter_characters` (fetch_characters.py lines 77-93): the list
comprehension keeping the characters whose `origin.name` contains
`"Earth"`, evaluated left to right, aborting at the first record whose
condition raises. -/
def filter_characters : List Character → Except PyError (List Character)
  | [] => .ok []
  | c :: cs => do
    let b ← keepEarth c
    let rest ← filter_characters cs
    pure (if b then c :: rest else rest)

/-- A parsed JSON page body; `none` fields model absent keys.  The
`info.next` field is doubly optional: the outer `none` models an absent
`"next"` key, `some none` models JSON `null`, and `some (some u)` a next
URL. -/
structure PageInfo where
  next : Option (Option String)
deriving Repr, DecidableEq

/-- A page object as parsed from a response body. -/
structure Page where
  results : Option (List Character)
  info : Option PageInfo
deriving Repr, DecidableEq

/-- An HTTP response: its status code and its body, where `none` models a
body that is not valid JSON (so `response.json()` raises). -/
structure HttpResponse where
  status : Nat
  body : Option Page
deriving Repr, DecidableEq

/-- Query parameters passed to `requests.get`. -/
abbrev Params := List (String × String)

/-- The upstream API, as the function taking a URL and query parameters
to the HTTP response it returns. -/
abbrev Upstream := String → Params → HttpResponse

/-- Constant `API_URL` (fetch_characters.py line 29). -/
def API_URL : String := "https://rickandmortyapi.com/api/character"

/-- The query parameters of the first request
(fetch_characters.py line 55). -/
def initial_params : Params := [("species", "Human"), ("status", "Alive")]

/-- Python `response.raise_for_status()`: raises `requests.HTTPError`, carrying
the status code and URL, exactly when the status is 4xx or 5xx. -/
def raise_for_status (r : HttpResponse) (url : String) :
    Except PyError Unit :=
  if 400 ≤ r.status then .error (.httpError r.status url) else .ok ()

/-- Python `response.json()`: the parsed page, or a decode error when the body
is not valid JSON. -/
def responseJson (r : HttpResponse) (url : String) : Except PyError Page :=
  match r.body with
  | none => .error (.jsonDecodeError url)
  | some p => .ok p

/-- The `while url:` loop of `fetch_all_characters`
(fetch_characters.py lines 57-70).  Each fuel unit allows one GET
request; the result is `none` only when the fuel runs out before the loop
finishes.  Python's `while url:` treats both `None` and the empty string
as false, so an empty next URL also ends the loop. -/
def fetchLoop (up : Upstream) :
    Nat → String → Params → List Character →
      Option (Except PyError (List Character))
  | 0, _, _, _ => none
  | fuel + 1, url, params, acc =>
    let response := up url params
    match raise_for_status response url with
    | .error e => some (.error e)
    | .ok _ =>
      match responseJson response url with
      | .error e => some (.error e)
      | .ok data =>
        match getKey data.results "results" with
        | .error e => some (.error e)
        | .ok results =>
          match getKey data.info "info" with
          | .error e => some (.error e)
          | .ok info =>
            match getKey info.next "next" with
            | .error e => some (.error e)
            | .ok nextUrl =>
              match nextUrl with
              | none => some (.ok (acc ++ results))
              | some u =>
                if u = "" then some (.ok (acc ++ results))
                else fetchLoop up fuel u [] (acc ++ results)

/-- Function `fetch_all_characters` (fetch_characters.py lines 37-70): starts the
page loop at `API_URL` with the `species=Human`, `status=Alive` query
parameters and an empty accumulator. -/
def fetch_all_characters (up : Upstream) (fuel : Nat) :
    Option (Except PyError (List Character)) :=
  fetchLoop up fuel API_URL initial_params []

/-- The startup cache initialisation of app.py line 31:
`_characters = filter_characters(fetch_all_characters())`.  An exception
from the fetch propagates, so the filter only runs on a successful fetch
and no cache value exists on any error. -/
def app_init (up : Upstream) (fuel : Nat) :
    Option (Except PyError (List Character)) :=
  match fetch_all_characters up fuel with
  | none => none
  | some (.error e) => some (.error e)
  | some (.ok cs) => some (filter_characters cs)

/-- The projection built per character by `get_characters`
(app.py lines 571-578). -/
structure CharacterView where
  name : String
  location : String
  image : String
deriving Repr, DecidableEq

/-- One element of the `result` comprehension in `get_characters`:
`{"name": c["name"], "location": c["location"]["name"],
"image": c["image"]}`. -/
def projectCharacter (c : Character) : Except PyError CharacterView := do
  let n ← getKey c.name "name"
  let locRef ← getKey c.location "location"
  let loc ← getKey locRef.name "name"
  let img ← getKey c.image "image"
  pure ⟨n, loc, img⟩

/-- The JSON object returned by the `/characters` endpoint. -/
structure JsonListing where
  count : Nat
  characters : List CharacterView
deriving Repr, DecidableEq

/-- Function `get_characters` (app.py lines 558-579): projects every cached record
and returns `{"count": len(result), "characters": result}` with HTTP
status 200. -/
def get_characters (cache : List Character) :
    Except PyError (JsonListing × Nat) := do
  let result ← cache.mapM projectCharacter
  pure (⟨result.length, result⟩, 200)

/-- One data row written by `save_to_csv`
(fetch_characters.py lines 117-122): `[c["name"],
c["location"]["name"], c["image"]]`. -/
def csvRow (c : Character) : Except PyError (List String) := do
  let n ← getKey c.name "name"
  let locRef ← getKey c.location "location"
  let loc ← getKey locRef.name "name"
  let img ← getKey c.image "image"
  pure [n, loc, img]

/-- Function `save_to_csv` (fetch_characters.py lines 100-124), modelled at the
level of logical rows: the resulting file content is the header row
followed by one data row per character.  `existing` is the content of any
file already at the destination path; `open(filename, "w")` truncates, so
it is discarded. -/
def save_to_csv (existing : List (List String))
    (characters : List Character) : Except PyError (List (List String)) := do
  let _ := existing
  let rows ← characters.mapM csvRow
  pure (["Name", "Location", "Image"] :: rows)

/-- A well-formed success page, as the spec describes upstream responses:
HTTP 200 with a JSON body carrying `results` and `info.next` (`next` is
`none` for JSON `null`). -/
def mkPage (results : List Character) (next : Option String) :
    HttpResponse :=
  ⟨200, some ⟨some results, some ⟨some next⟩⟩⟩

/-- One page of the spec's next-chain: the URL it was requested at, its
`results`, and its `info.next` value (`none` for null). -/
structure PageSpec where
  url : String
  results : List Character
  next : Option String
deriving Repr, DecidableEq

/-- Holds when `(up url params)` is a success response whose well-formed body
carries the given `results` and `next`. -/
def ServesPage (up : Upstream) (url : String) (params : Params)
    (results : List Character) (next : Option String) : Prop :=
  (up url params).status < 400 ∧
    (up url params).body = some ⟨some results, some ⟨some next⟩⟩

/-- The spec's notion of the next-chain of `up` starting at a request
`(url, params)`: the sequence of well-formed pages obtained by following
`info.next` (each follow-up request uses the exact next URL and no query
parameters) until `next` is null. -/
inductive ChainSpec (up : Upstream) :
    String → Params → List PageSpec → Prop where
  | last (url : String) (params : Params) (results : List Character) :
      ServesPage up url params results none →
      ChainSpec up url params [⟨url, results, none⟩]
  | step (url : String) (params : Params) (results : List Character)
      (u : String) (rest : List PageSpec) :
      ServesPage up url params results (some u) →
      ChainSpec up u [] rest →
      ChainSpec up url params (⟨url, results, some u⟩ :: rest)

/-- The loop of `fetch_all_characters`, started at request
`(url, params)`, actually issues the request `(v, q)` after `n` follow-up
hops: each hop crosses a success page with a non-empty next URL (Python's
`while url:` stops at an empty one). -/
inductive ReachesReq (up : Upstream) :
    Nat → String → Params → String → Params → Prop where
  | refl (url : String) (params : Params) :
      ReachesReq up 0 url params url params
  | step (url : String) (params : Params) (results : List Character)
      (u v : String) (q : Params) (n : Nat) :
      ServesPage up url params results (some u) →
      u ≠ "" →
      ReachesReq up n u [] v q →
      ReachesReq up (n + 1) url params v q

/-- A record with every field the dashboard reads, origin
"Earth (C-137)". -/
def rickChar : Character :=
  { id := some 1, name := some "Rick Sanchez", status := some "Alive",
    species := some "Human", gender := some "Male",
    origin := some ⟨some "Earth (C-137)"⟩,
    location := some ⟨some "Citadel of Ricks"⟩,
    image := some "https://example.org/rick.png",
    episode := some ["e1"], url := some "https://example.org/1" }

/-- A record whose origin is "Mars". -/
def zorpChar : Character :=
  { name := some "Zorp", status := some "Alive", species := some "Human",
    origin := some ⟨some "Mars"⟩, location := some ⟨some "Mars"⟩,
    image := some "https://example.org/zorp.png" }

/-- A record whose origin is "Earth (Replacement Dimension)". -/
def mortyChar : Character :=
  { name := some "Morty Smith", status := some "Alive",
    species := some "Human",
    origin := some ⟨some "Earth (Replacement Dimension)"⟩,
    location := some ⟨some "Earth (Replacement Dimension)"⟩,
    image := some "https://example.org/morty.png" }

/-- A record whose origin is "unknown". -/
def unknownChar : Character :=
  { name := some "Mr. Meeseeks", status := some "Alive",
    species := some "Human", origin := some ⟨some "unknown"⟩,
    location := some ⟨some "Box"⟩,
    image := some "https://example.org/meeseeks.png" }

/-- A record whose origin name is the empty string. -/
def emptyOriginChar : Character :=
  { name := some "Blank", origin := some ⟨some ""⟩,
    location := some ⟨some "Nowhere"⟩,
    image := some "https://example.org/blank.png" }

/-- A record with no `origin` key at all. -/
def noOriginChar : Character :=
  { name := some "Ghost" }

/-- A dead robot from Earth: everything except the origin differs from
`rickChar`. -/
def deadRobotChar : Character :=
  { id := some 99, name := some "Robo", status := some "Dead",
    species := some "Robot", gender := some "Genderless",
    origin := some ⟨some "Earth (C-137)"⟩,
    location := some ⟨some "Scrapyard"⟩,
    image := some "https://example.org/robo.png",
    episode := some [], url := some "https://example.org/99" }

/-- The five-origin sample list of the filter claims. -/
def demoChars : List Character :=
  [rickChar, zorpChar, mortyChar, unknownChar, emptyOriginChar]

/-- An upstream serving a two-page chain: `API_URL` with the initial
query parameters yields `[rickChar]` and next URL "page2", and "page2"
with no parameters yields `[mortyChar]` and next null; anything else is
a 404. -/
def upTwoPages : Upstream := fun url params =>
  if url = API_URL ∧ params = initial_params then
    mkPage [rickChar] (some "page2")
  else if url = "page2" ∧ params = [] then
    mkPage [mortyChar] none
  else ⟨404, none⟩

/-- The chain served by `upTwoPages`. -/
def twoPageChain : List PageSpec :=
  [⟨API_URL, [rickChar], some "page2"⟩, ⟨"page2", [mortyChar], none⟩]

/-- An upstream whose first page points at the empty-string URL as next,
and which serves a further well-formed page at that URL. -/
def upEmptyNext : Upstream := fun url _ =>
  if url = "" then mkPage [zorpChar] none
  else mkPage [rickChar] (some "")

/-- The next-chain served by `upEmptyNext` from the base URL. -/
def emptyNextChain : List PageSpec :=
  [⟨API_URL, [rickChar], some ""⟩, ⟨"", [zorpChar], none⟩]

/-- An upstream answering HTTP 500 to every request. -/
def upAlways500 : Upstream := fun _ _ => ⟨500, none⟩

/-- An upstream whose first page is fine but whose second page at
"page2" has a 500 status. -/
def upSecondPage500 : Upstream := fun url params =>
  if url = API_URL ∧ params = initial_params then
    mkPage [rickChar] (some "page2")
  else ⟨500, none⟩

/-- An upstream whose page at "page2" parses as JSON but lacks the
`results` key. -/
def upSecondPageNoResults : Upstream := fun url params =>
  if url = API_URL ∧ params = initial_params then
    mkPage [rickChar] (some "page2")
  else ⟨200, some ⟨none, some ⟨some none⟩⟩⟩

/-- An upstream serving a single page (`next` null) for every request. -/
def upOnePage : Upstream := fun _ _ => mkPage [rickChar] none

/-- The one-page chain served by `upOnePage` from the base URL. -/
def onePageChain : List PageSpec := [⟨API_URL, [rickChar], none⟩]

/-- Decidable equality for `Except`, so results of the embedded
functions can be checked on concrete inputs. -/
instance instDecEqExcept {ε α : Type} [DecidableEq ε] [DecidableEq α] :
    DecidableEq (Except ε α) := fun x y =>
  match x, y with
  | .ok a, .ok b =>
    if h : a = b then .isTrue (congrArg Except.ok h)
    else .isFalse fun hc => h (Except.ok.inj hc)
  | .error a, .error b =>
    if h : a = b then .isTrue (congrArg Except.error h)
    else .isFalse fun hc => h (Except.error.inj hc)
  | .ok _, .error _ => .isFalse fun hc => Except.noConfusion hc
  | .error _, .ok _ => .isFalse fun hc => Except.noConfusion hc

/-- The filter predicate as a total Boolean function, defined for records
whose `origin.name` is present (the `getD` default is never reached
there). -/
def keepEarthD (c : Character) : Bool :=
  strContains "Earth" ((c.origin.bind NamedRef.name).getD "")

/-- The `/characters` projection as a total function, defined for records
whose `name`, `location.name` and `image` are present. -/
def projectView (c : Character) : CharacterView :=
  ⟨c.name.getD "", (c.location.bind NamedRef.name).getD "",
   c.image.getD ""⟩

/-- A CSV data row as a total function, defined for records whose
`name`, `location.name` and `image` are present. -/
def csvRowD (c : Character) : List String :=
  [c.name.getD "", (c.location.bind NamedRef.name).getD "",
   c.image.getD ""]

/-! ## Helper lemmas about the filter -/

theorem keepEarth_of_name (c : Character) (n : String)
    (h : c.origin.bind NamedRef.name = some n) :
    keepEarth c = .ok (strContains "Earth" n) := by
  cases ho : c.origin with
  | none => simp [ho] at h
  | some o =>
    cases hn : o.name with
    | none => simp [ho, Option.bind, hn] at h
    | some m =>
      have hmn : m = n := by simpa [ho, Option.bind, hn] using h
      subst hmn
      simp [keepEarth, getKey, ho, hn, Bind.bind, Except.bind, pure,
        Except.pure]

theorem keepEarth_of_missing (c : Character)
    (h : c.origin.bind NamedRef.name = none) :
    keepEarth c = .error (.keyError "origin") ∨
      keepEarth c = .error (.keyError "name") := by
  cases ho : c.origin with
  | none =>
    left
    simp [keepEarth, getKey, ho, Bind.bind, Except.bind]
  | some o =>
    cases hn : o.name with
    | none =>
      right
      simp [keepEarth, getKey, ho, hn, Bind.bind, Except.bind]
    | some m => simp [ho, Option.bind, hn] at h

theorem keepEarthD_eq (c : Character) (n : String)
    (h : c.origin.bind NamedRef.name = some n) :
    keepEarthD c = strContains "Earth" n := by
  simp [keepEarthD, h]

theorem filter_characters_ok (cs : List Character)
    (h : ∀ c ∈ cs, (c.origin.bind NamedRef.name).isSome = true) :
    filter_characters cs = .ok (cs.filter keepEarthD) := by
  induction cs with
  | nil => rfl
  | cons c cs ih =>
    obtain ⟨n, hn⟩ :=
      Option.isSome_iff_exists.mp (h c (List.mem_cons_self c cs))
    have hk := keepEarth_of_name c n hn
    have ih' := ih fun x hx => h x (List.mem_cons_of_mem c hx)
    rw [List.filter_cons]
    simp only [filter_characters, hk, ih', Bind.bind, Except.bind,
      keepEarthD_eq c n hn, pure, Except.pure]

/-! ## Claims about the filter -/

/-- C1: on lists whose records all have `origin.name` present,
`filter_characters` keeps a record iff its `origin.name` contains the
literal, case-sensitive substring "Earth"; "Earth (C-137)" and
"Earth (Replacement Dimension)" contain it, while "unknown", "Mars" and
the empty string do not. -/
theorem filter_characters_earth_iff (cs : List Character)
    (h : ∀ c ∈ cs, (c.origin.bind NamedRef.name).isSome = true) :
    ∃ kept, filter_characters cs = .ok kept ∧
      (∀ c, c ∈ kept ↔ c ∈ cs ∧
        strContains "Earth" ((c.origin.bind NamedRef.name).getD "") =
          true) ∧
      strContains "Earth" "Earth (C-137)" = true ∧
      strContains "Earth" "Earth (Replacement Dimension)" = true ∧
      strContains "Earth" "unknown" = false ∧
      strContains "Earth" "Mars" = false ∧
      strContains "Earth" "" = false := by
  refine ⟨cs.filter keepEarthD, filter_characters_ok cs h, ?_, by decide,
    by decide, by decide, by decide, by decide⟩
  intro c
  simp [List.mem_filter, keepEarthD]

/-- Witness for C1: on the five-origin sample list the filter keeps
exactly the two Earth records. -/
theorem filter_characters_earth_iff_witness :
    (∀ c ∈ demoChars, (c.origin.bind NamedRef.name).isSome = true) ∧
    (∃ kept, filter_characters demoChars = .ok kept ∧
      (∀ c, c ∈ kept ↔ c ∈ demoChars ∧
        strContains "Earth" ((c.origin.bind NamedRef.name).getD "") =
          true) ∧
      strContains "Earth" "Earth (C-137)" = true ∧
      strContains "Earth" "Earth (Replacement Dimension)" = true ∧
      strContains "Earth" "unknown" = false ∧
      strContains "Earth" "Mars" = false ∧
      strContains "Earth" "" = false) ∧
    filter_characters demoChars = .ok [rickChar, mortyChar] :=
  ⟨by decide, filter_characters_earth_iff demoChars (by decide),
    by decide⟩

/-- C4: on records with `origin.name` present, `filter_characters` is an
order-preserving subsequence selection (the survivors form a sublist of
the input, unmodified) and is idempotent: filtering its own output
returns it unchanged. -/
theorem filter_characters_pure_idempotent (cs : List Character)
    (h : ∀ c ∈ cs, (c.origin.bind NamedRef.name).isSome = true) :
    ∃ ys, filter_characters cs = .ok ys ∧ ys.Sublist cs ∧
      filter_characters ys = .ok ys := by
  refine ⟨cs.filter keepEarthD, filter_characters_ok cs h,
    List.filter_sublist cs, ?_⟩
  have hsub : ∀ c ∈ cs.filter keepEarthD,
      (c.origin.bind NamedRef.name).isSome = true :=
    fun c hc => h c (List.mem_of_mem_filter hc)
  rw [filter_characters_ok _ hsub,
    List.filter_eq_self.mpr fun a ha => List.of_mem_filter ha]

/-- Witness for C4 at the five-origin sample list. -/
theorem filter_characters_pure_idempotent_witness :
    (∀ c ∈ demoChars, (c.origin.bind NamedRef.name).isSome = true) ∧
    (∃ ys, filter_characters demoChars = .ok ys ∧ ys.Sublist demoChars ∧
      filter_characters ys = .ok ys) :=
  ⟨by decide, filter_characters_pure_idempotent demoChars (by decide)⟩

/-- C5: a list containing a record whose `origin` or `origin.name` is
absent makes `filter_characters` fail with a missing-field `KeyError`
(on "origin" or "name") instead of treating the record as
non-matching. -/
theorem filter_characters_missing_field (cs : List Character)
    (h : ∃ c ∈ cs, c.origin.bind NamedRef.name = none) :
    ∃ e, filter_characters cs = .error e ∧ e.isMissingField = true := by
  induction cs with
  | nil => simp at h
  | cons c cs ih =>
    cases hc : c.origin.bind NamedRef.name with
    | none =>
      rcases keepEarth_of_missing c hc with hk | hk
      · exact ⟨.keyError "origin",
          by simp [filter_characters, hk, Bind.bind, Except.bind],
          by decide⟩
      · exact ⟨.keyError "name",
          by simp [filter_characters, hk, Bind.bind, Except.bind],
          by decide⟩
    | some n =>
      have hk := keepEarth_of_name c n hc
      have hcs : ∃ c' ∈ cs, c'.origin.bind NamedRef.name = none := by
        rcases h with ⟨c', hc', hnone⟩
        rcases List.mem_cons.mp hc' with rfl | hmem
        · rw [hc] at hnone; exact absurd hnone (by simp)
        · exact ⟨c', hmem, hnone⟩
      obtain ⟨e, he, hmf⟩ := ih hcs
      refine ⟨e, ?_, hmf⟩
      simp [filter_characters, hk, he, Bind.bind, Except.bind]

/-- Witness for C5: a list with a record lacking `origin` makes the
filter raise. -/
theorem filter_characters_missing_field_witness :
    (∃ c ∈ [rickChar, noOriginChar],
      c.origin.bind NamedRef.name = none) ∧
    (∃ e, filter_characters [rickChar, noOriginChar] = .error e ∧
      e.isMissingField = true) :=
  ⟨by decide, filter_characters_missing_field _ (by decide)⟩

/-- C10: the keep/drop decision depends only on `origin.name`: two
records with the same present `origin.name` are treated identically by
the comprehension condition and by `filter_characters`, whatever their
other fields (species, status, ...) are — the in-memory filter enforces
no Human/Alive constraint. -/
theorem filter_characters_origin_only (c₁ c₂ : Character) (n : String)
    (h₁ : c₁.origin.bind NamedRef.name = some n)
    (h₂ : c₂.origin.bind NamedRef.name = some n) :
    keepEarth c₁ = keepEarth c₂ ∧
    (filter_characters [c₁] = .ok [c₁] ↔
      filter_characters [c₂] = .ok [c₂]) ∧
    (filter_characters [c₁] = .ok [] ↔
      filter_characters [c₂] = .ok []) := by
  have k₁ := keepEarth_of_name c₁ n h₁
  have k₂ := keepEarth_of_name c₂ n h₂
  cases hb : strContains "Earth" n <;>
    rw [hb] at k₁ k₂ <;>
    refine ⟨k₁.trans k₂.symm, ?_, ?_⟩ <;>
    simp [filter_characters, k₁, k₂, Bind.bind, Except.bind, pure,
      Except.pure]

/-- Witness for C10: a dead robot and an alive human with the same
origin name are both kept. -/
theorem filter_characters_origin_only_witness :
    rickChar.origin.bind NamedRef.name = some "Earth (C-137)" ∧
    deadRobotChar.origin.bind NamedRef.name = some "Earth (C-137)" ∧
    (keepEarth rickChar = keepEarth deadRobotChar ∧
      (filter_characters [rickChar] = .ok [rickChar] ↔
        filter_characters [deadRobotChar] = .ok [deadRobotChar]) ∧
      (filter_characters [rickChar] = .ok [] ↔
        filter_characters [deadRobotChar] = .ok [])) ∧
    keepEarth deadRobotChar = .ok true ∧
    deadRobotChar.species = some "Robot" ∧
    deadRobotChar.status = some "Dead" :=
  ⟨by decide, by decide,
    filter_characters_origin_only rickChar deadRobotChar "Earth (C-137)"
      (by decide) (by decide),
    by decide, by decide, by decide⟩

/-! ## Helper lemmas about the fetch loop -/

theorem fetchLoop_succ_last (up : Upstream) (url : String)
    (params : Params) (results : List Character) (fuel : Nat)
    (acc : List Character) (h : ServesPage up url params results none) :
    fetchLoop up (fuel + 1) url params acc =
      some (.ok (acc ++ results)) := by
  obtain ⟨hs, hb⟩ := h
  have hns : ¬ 400 ≤ (up url params).status := by omega
  simp [fetchLoop, raise_for_status, responseJson, getKey, hb, hns]

theorem fetchLoop_succ_next (up : Upstream) (url : String)
    (params : Params) (results : List Character) (u : String)
    (fuel : Nat) (acc : List Character)
    (h : ServesPage up url params results (some u)) :
    fetchLoop up (fuel + 1) url params acc =
      if u = "" then some (.ok (acc ++ results))
      else fetchLoop up fuel u [] (acc ++ results) := by
  obtain ⟨hs, hb⟩ := h
  have hns : ¬ 400 ≤ (up url params).status := by omega
  simp [fetchLoop, raise_for_status, responseJson, getKey, hb, hns]

theorem fetchLoop_chain (up : Upstream) {url : String} {params : Params}
    {chain : List PageSpec} (h : ChainSpec up url params chain) :
    (∀ ps ∈ chain, ps.next ≠ some "") →
    ∀ (acc : List Character) (fuel : Nat), chain.length ≤ fuel →
      fetchLoop up fuel url params acc =
        some (.ok (acc ++ (chain.map PageSpec.results).flatten)) := by
  induction h with
  | last url params results hserve =>
    intro _ acc fuel hfuel
    cases fuel with
    | zero => exact absurd hfuel (by simp)
    | succ f =>
      rw [fetchLoop_succ_last up url params results f acc hserve]
      simp
  | step url params results u rest hserve hrest ih =>
    intro hne acc fuel hfuel
    have hu : u ≠ "" := by
      simpa using hne ⟨url, results, some u⟩ (List.mem_cons_self _ _)
    cases fuel with
    | zero => exact absurd hfuel (by simp)
    | succ f =>
      rw [fetchLoop_succ_next up url params results u f acc hserve,
        if_neg hu,
        ih (fun ps hps => hne ps (List.mem_cons_of_mem _ hps))
          (acc ++ results) f
          (by simp only [List.length_cons] at hfuel; omega)]
      simp

theorem fetchLoop_terminates (up : Upstream) {url : String}
    {params : Params} {chain : List PageSpec}
    (h : ChainSpec up url params chain) :
    ∀ (acc : List Character) (fuel : Nat), chain.length ≤ fuel →
      ∃ r, fetchLoop up fuel url params acc = some (.ok r) := by
  induction h with
  | last url params results hserve =>
    intro acc fuel hfuel
    cases fuel with
    | zero => exact absurd hfuel (by simp)
    | succ f =>
      exact ⟨acc ++ results,
        fetchLoop_succ_last up url params results f acc hserve⟩
  | step url params results u rest hserve hrest ih =>
    intro acc fuel hfuel
    cases fuel with
    | zero => exact absurd hfuel (by simp)
    | succ f =>
      rw [fetchLoop_succ_next up url params results u f acc hserve]
      by_cases hu : u = ""
      · rw [if_pos hu]; exact ⟨acc ++ results, rfl⟩
      · rw [if_neg hu]
        exact ih (acc ++ results) f
          (by simp only [List.length_cons] at hfuel; omega)

theorem fetchLoop_reach_error (up : Upstream) (e : PyError) :
    ∀ {n : Nat} {url : String} {params : Params} {v : String}
      {q : Params}, ReachesReq up n url params v q →
      (∀ (acc : List Character) (fuel : Nat),
        fetchLoop up (fuel + 1) v q acc = some (.error e)) →
      ∀ (acc : List Character) (fuel : Nat), n < fuel →
        fetchLoop up fuel url params acc = some (.error e) := by
  intro n url params v q h
  induction h with
  | refl u p =>
    intro hnow acc fuel hfuel
    cases fuel with
    | zero => omega
    | succ f => exact hnow acc f
  | step u p results w v' q' m hserve hw hrest ih =>
    intro hnow acc fuel hfuel
    cases fuel with
    | zero => omega
    | succ f =>
      rw [fetchLoop_succ_next up u p results w f acc hserve, if_neg hw]
      exact ih hnow (acc ++ results) f (by omega)

theorem fetchLoop_http_now (up : Upstream) (v : String) (q : Params)
    (h : 400 ≤ (up v q).status) (acc : List Character) (fuel : Nat) :
    fetchLoop up (fuel + 1) v q acc =
      some (.error (.httpError (up v q).status v)) := by
  simp [fetchLoop, raise_for_status, h]

theorem fetchLoop_json_now (up : Upstream) (v : String) (q : Params)
    (hs : (up v q).status < 400) (hb : (up v q).body = none)
    (acc : List Character) (fuel : Nat) :
    fetchLoop up (fuel + 1) v q acc =
      some (.error (.jsonDecodeError v)) := by
  have hns : ¬ 400 ≤ (up v q).status := by omega
  simp [fetchLoop, raise_for_status, responseJson, hb, hns]

theorem fetchLoop_noresults_now (up : Upstream) (v : String) (q : Params)
    (p : Page) (hs : (up v q).status < 400) (hb : (up v q).body = some p)
    (hr : p.results = none) (acc : List Character) (fuel : Nat) :
    fetchLoop up (fuel + 1) v q acc =
      some (.error (.keyError "results")) := by
  have hns : ¬ 400 ≤ (up v q).status := by omega
  simp [fetchLoop, raise_for_status, responseJson, getKey, hb, hr, hns]

theorem fetchLoop_noinfo_now (up : Upstream) (v : String) (q : Params)
    (p : Page) (rs : List Character) (hs : (up v q).status < 400)
    (hb : (up v q).body = some p) (hr : p.results = some rs)
    (hi : p.info = none) (acc : List Character) (fuel : Nat) :
    fetchLoop up (fuel + 1) v q acc =
      some (.error (.keyError "info")) := by
  have hns : ¬ 400 ≤ (up v q).status := by omega
  simp [fetchLoop, raise_for_status, responseJson, getKey, hb, hr, hi,
    hns]

/-! ## Claims about the fetch loop and startup -/

/-- Counterexample to C2 as stated: an upstream whose first page's
`info.next` is the empty-string URL, with a further well-formed page
served at that URL.  The next-chain is finite and well-formed, but the
fetch stops after the first page (Python's `while url:` is false for the
empty string), so the result is not the concatenation of all pages of
the chain. -/
theorem fetch_all_characters_empty_next_cex :
    ChainSpec upEmptyNext API_URL initial_params emptyNextChain ∧
    (emptyNextChain.map PageSpec.results).flatten =
      [rickChar, zorpChar] ∧
    fetch_all_characters upEmptyNext emptyNextChain.length =
      some (.ok [rickChar]) ∧
    fetch_all_characters upEmptyNext emptyNextChain.length ≠
      some (.ok ((emptyNextChain.map PageSpec.results).flatten)) := by
  refine ⟨?_, by decide, by decide, by decide⟩
  show ChainSpec upEmptyNext API_URL initial_params
    [⟨API_URL, [rickChar], some ""⟩, ⟨"", [zorpChar], none⟩]
  exact ChainSpec.step API_URL initial_params [rickChar] "" _
    ⟨by decide, by decide⟩
    (ChainSpec.last "" [] [zorpChar] ⟨by decide, by decide⟩)

/-- C2 (amended): for every upstream whose next-chain from the base URL
is finite, consists of well-formed success pages, and has no empty-string
next URL, `fetch_all_characters` returns exactly the concatenation of the
`results` of all pages in page-then-within-page order, with the first
GET at `API_URL` with the initial query parameters, each follow-up GET at
the exact `info.next` URL with no query parameters, and termination at a
null `info.next`. -/
theorem fetch_all_characters_chain (up : Upstream)
    (chain : List PageSpec)
    (h : ChainSpec up API_URL initial_params chain)
    (hne : ∀ ps ∈ chain, ps.next ≠ some "")
    (fuel : Nat) (hfuel : chain.length ≤ fuel) :
    fetch_all_characters up fuel =
      some (.ok ((chain.map PageSpec.results).flatten)) := by
  have := fetchLoop_chain up h hne [] fuel hfuel
  simpa [fetch_all_characters] using this

/-- Witness for the amended C2 at a concrete two-page upstream. -/
theorem fetch_all_characters_chain_witness :
    ChainSpec upTwoPages API_URL initial_params twoPageChain ∧
    (∀ ps ∈ twoPageChain, ps.next ≠ some "") ∧
    fetch_all_characters upTwoPages 2 =
      some (.ok [rickChar, mortyChar]) := by
  have hc : ChainSpec upTwoPages API_URL initial_params twoPageChain := by
    show ChainSpec upTwoPages API_URL initial_params
      [⟨API_URL, [rickChar], some "page2"⟩, ⟨"page2", [mortyChar], none⟩]
    exact ChainSpec.step API_URL initial_params [rickChar] "page2" _
      ⟨by decide, by decide⟩
      (ChainSpec.last "page2" [] [mortyChar] ⟨by decide, by decide⟩)
  refine ⟨hc, by decide, ?_⟩
  rw [fetch_all_characters_chain upTwoPages twoPageChain hc (by decide) 2
    (by decide)]
  decide

/-- C3: a non-success HTTP status at any request the page loop actually
issues aborts the whole fetch with an `httpError` carrying that status
code and URL, and startup initialisation (app.py line 31) fails with the
same error, so no cache value is ever produced.  The conclusion holds at
every fuel above the hop count — in particular at `n + 1`, so no
additional (retry) request is needed to surface the error. -/
theorem fetch_http_error_aborts (up : Upstream) (n : Nat) (v : String)
    (q : Params) (hreach : ReachesReq up n API_URL initial_params v q)
    (hstatus : 400 ≤ (up v q).status) (fuel : Nat) (hfuel : n < fuel) :
    fetch_all_characters up fuel =
      some (.error (.httpError (up v q).status v)) ∧
    app_init up fuel = some (.error (.httpError (up v q).status v)) ∧
    (PyError.httpError (up v q).status v).isFetchError = true := by
  have hf : fetch_all_characters up fuel =
      some (.error (.httpError (up v q).status v)) :=
    fetchLoop_reach_error up _ hreach
      (fun acc f => fetchLoop_http_now up v q hstatus acc f) [] fuel hfuel
  exact ⟨hf, by simp [app_init, hf], rfl⟩

/-- Witness for C3: HTTP 500 on the second page fails startup with
`httpError 500 "page2"`. -/
theorem fetch_http_error_aborts_witness :
    ReachesReq upSecondPage500 1 API_URL initial_params "page2" [] ∧
    400 ≤ (upSecondPage500 "page2" []).status ∧
    fetch_all_characters upSecondPage500 2 =
      some (.error (.httpError 500 "page2")) ∧
    app_init upSecondPage500 2 =
      some (.error (.httpError 500 "page2")) := by
  have hr : ReachesReq upSecondPage500 1 API_URL initial_params
      "page2" [] :=
    ReachesReq.step API_URL initial_params [rickChar] "page2" "page2" []
      0 ⟨by decide, by decide⟩ (by decide)
      (ReachesReq.refl "page2" [])
  have main := fetch_http_error_aborts upSecondPage500 1 "page2" [] hr
    (by decide) 2 (by decide)
  have h500 : (upSecondPage500 "page2" []).status = 500 := by decide
  rw [h500] at main
  exact ⟨hr, by decide, main.1, main.2.1⟩

/-- C6: a non-JSON body, or a page missing `results` or `info`, at any
request the page loop actually issues makes the fetch and startup
initialisation fail with an error classified as `MalformedResponseError`
and not as `FetchError`; the conclusion holds at every fuel above the
hop count, so the failure is not retried. -/
theorem fetch_malformed_aborts (up : Upstream) (n : Nat) (v : String)
    (q : Params) (hreach : ReachesReq up n API_URL initial_params v q)
    (hstatus : (up v q).status < 400)
    (hbad : (up v q).body = none ∨
      ∃ p, (up v q).body = some p ∧
        (p.results = none ∨ p.info = none))
    (fuel : Nat) (hfuel : n < fuel) :
    ∃ e, fetch_all_characters up fuel = some (.error e) ∧
      app_init up fuel = some (.error e) ∧
      e.isMalformedResponse = true ∧ e.isFetchError = false := by
  have hex : ∃ e, (∀ (acc : List Character) (f : Nat),
      fetchLoop up (f + 1) v q acc = some (.error e)) ∧
      e.isMalformedResponse = true ∧ e.isFetchError = false := by
    rcases hbad with hb | ⟨p, hb, hpr⟩
    · exact ⟨.jsonDecodeError v,
        fun acc f => fetchLoop_json_now up v q hstatus hb acc f, rfl,
        rfl⟩
    · rcases hpr with hr | hi
      · exact ⟨.keyError "results",
          fun acc f =>
            fetchLoop_noresults_now up v q p hstatus hb hr acc f,
          by decide, rfl⟩
      · cases hr : p.results with
        | none =>
          exact ⟨.keyError "results",
            fun acc f =>
              fetchLoop_noresults_now up v q p hstatus hb hr acc f,
            by decide, rfl⟩
        | some rs =>
          exact ⟨.keyError "info",
            fun acc f =>
              fetchLoop_noinfo_now up v q p rs hstatus hb hr hi acc f,
            by decide, rfl⟩
  obtain ⟨e, hnow, hm, hfe⟩ := hex
  have hf : fetch_all_characters up fuel = some (.error e) :=
    fetchLoop_reach_error up e hreach hnow [] fuel hfuel
  exact ⟨e, hf, by simp [app_init, hf], hm, hfe⟩

/-- Witness for C6: a second page lacking `results` fails startup with a
malformed-response error. -/
theorem fetch_malformed_aborts_witness :
    ReachesReq upSecondPageNoResults 1 API_URL initial_params
      "page2" [] ∧
    (upSecondPageNoResults "page2" []).status < 400 ∧
    (∃ p, (upSecondPageNoResults "page2" []).body = some p ∧
      (p.results = none ∨ p.info = none)) ∧
    (∃ e, fetch_all_characters upSecondPageNoResults 2 =
        some (.error e) ∧
      app_init upSecondPageNoResults 2 = some (.error e) ∧
      e.isMalformedResponse = true ∧ e.isFetchError = false) := by
  have hr : ReachesReq upSecondPageNoResults 1 API_URL initial_params
      "page2" [] :=
    ReachesReq.step API_URL initial_params [rickChar] "page2" "page2" []
      0 ⟨by decide, by decide⟩ (by decide)
      (ReachesReq.refl "page2" [])
  refine ⟨hr, by decide,
    ⟨⟨none, some ⟨some none⟩⟩, by decide, Or.inl rfl⟩, ?_⟩
  exact fetch_malformed_aborts upSecondPageNoResults 1 "page2" [] hr
    (by decide)
    (Or.inr ⟨⟨none, some ⟨some none⟩⟩, by decide, Or.inl rfl⟩) 2
    (by decide)

/-- C7: for an upstream serving a finite well-formed next-chain from the
base URL, `fetch_all_characters` terminates within as many requests as
the chain has pages; and a first page whose `info.next` is null yields
exactly that page's records within a single request. -/
theorem fetch_all_characters_terminates (up : Upstream)
    (chain : List PageSpec)
    (h : ChainSpec up API_URL initial_params chain) :
    (∃ r, fetch_all_characters up chain.length = some (.ok r)) ∧
    (∀ results : List Character,
      ServesPage up API_URL initial_params results none →
      fetch_all_characters up 1 = some (.ok results)) := by
  constructor
  · exact fetchLoop_terminates up h [] chain.length le_rfl
  · intro results hserve
    have := fetchLoop_succ_last up API_URL initial_params results 0 []
      hserve
    simpa [fetch_all_characters] using this

/-- Witness for C7 at a single-page upstream, with one allowed
request. -/
theorem fetch_all_characters_terminates_witness :
    ChainSpec upOnePage API_URL initial_params onePageChain ∧
    ServesPage upOnePage API_URL initial_params [rickChar] none ∧
    (∃ r, fetch_all_characters upOnePage onePageChain.length =
      some (.ok r)) ∧
    fetch_all_characters upOnePage 1 = some (.ok [rickChar]) := by
  have hc : ChainSpec upOnePage API_URL initial_params onePageChain := by
    show ChainSpec upOnePage API_URL initial_params
      [⟨API_URL, [rickChar], none⟩]
    exact ChainSpec.last API_URL initial_params [rickChar]
      ⟨by decide, by decide⟩
  have main := fetch_all_characters_terminates upOnePage onePageChain hc
  exact ⟨hc, ⟨by decide, by decide⟩, main.1,
    main.2 [rickChar] ⟨by decide, by decide⟩⟩

/-! ## Helper lemmas about the presentation layer -/

theorem mapM_ok {α β : Type} (f : α → Except PyError β) (g : α → β)
    (l : List α) (h : ∀ a ∈ l, f a = .ok (g a)) :
    l.mapM f = .ok (l.map g) := by
  induction l with
  | nil => rfl
  | cons a l ih =>
    rw [List.mapM_cons, h a (List.mem_cons_self a l),
      ih fun x hx => h x (List.mem_cons_of_mem _ hx)]
    rfl

theorem projectCharacter_ok (c : Character)
    (h : c.name.isSome = true ∧
      (c.location.bind NamedRef.name).isSome = true ∧
      c.image.isSome = true) :
    projectCharacter c = .ok (projectView c) := by
  obtain ⟨h1, h2, h3⟩ := h
  obtain ⟨n, hn⟩ := Option.isSome_iff_exists.mp h1
  obtain ⟨i, hi⟩ := Option.isSome_iff_exists.mp h3
  cases hloc : c.location with
  | none => rw [hloc] at h2; simp at h2
  | some locRef =>
    rw [hloc] at h2
    obtain ⟨l, hl⟩ := Option.isSome_iff_exists.mp h2
    simp only [Option.bind] at hl
    simp [projectCharacter, projectView, getKey, hn, hloc, hl, hi,
      Option.bind, Bind.bind, Except.bind, pure, Except.pure]

theorem csvRow_ok (c : Character)
    (h : c.name.isSome = true ∧
      (c.location.bind NamedRef.name).isSome = true ∧
      c.image.isSome = true) :
    csvRow c = .ok (csvRowD c) := by
  obtain ⟨h1, h2, h3⟩ := h
  obtain ⟨n, hn⟩ := Option.isSome_iff_exists.mp h1
  obtain ⟨i, hi⟩ := Option.isSome_iff_exists.mp h3
  cases hloc : c.location with
  | none => rw [hloc] at h2; simp at h2
  | some locRef =>
    rw [hloc] at h2
    obtain ⟨l, hl⟩ := Option.isSome_iff_exists.mp h2
    simp only [Option.bind] at hl
    simp [csvRow, csvRowD, getKey, hn, hloc, hl, hi, Option.bind,
      Bind.bind, Except.bind, pure, Except.pure]

/-! ## Claims about the presentation layer -/

/-- C8: for a cache of records with `name`, `location.name` and `image`
present, the `/characters` endpoint returns, with HTTP 200, an object
whose `characters` array is the order-preserving name/location/image
projection of the cached records and whose `count` equals both the
array's length and the cache size; the function is pure, so the cache
value is unchanged by the request. -/
theorem get_characters_spec (cache : List Character)
    (h : ∀ c ∈ cache, c.name.isSome = true ∧
      (c.location.bind NamedRef.name).isSome = true ∧
      c.image.isSome = true) :
    ∃ views : List CharacterView,
      get_characters cache = .ok (⟨views.length, views⟩, 200) ∧
      views.length = cache.length ∧
      ∀ (i : Nat) (hi : i < views.length) (hc : i < cache.length),
        some (views.get ⟨i, hi⟩).name = (cache.get ⟨i, hc⟩).name ∧
        some (views.get ⟨i, hi⟩).location =
          ((cache.get ⟨i, hc⟩).location).bind NamedRef.name ∧
        some (views.get ⟨i, hi⟩).image = (cache.get ⟨i, hc⟩).image := by
  refine ⟨cache.map projectView, ?_, by simp, ?_⟩
  · have hm := mapM_ok projectCharacter projectView cache
      fun c hc => projectCharacter_ok c (h c hc)
    unfold get_characters
    rw [hm]
    rfl
  · intro i hi hc
    have hmem : cache.get ⟨i, hc⟩ ∈ cache := List.get_mem cache i hc
    obtain ⟨h1, h2, h3⟩ := h _ hmem
    obtain ⟨n, hn⟩ := Option.isSome_iff_exists.mp h1
    obtain ⟨l, hl⟩ := Option.isSome_iff_exists.mp h2
    obtain ⟨im, him⟩ := Option.isSome_iff_exists.mp h3
    have hget : (cache.map projectView).get ⟨i, hi⟩ =
        projectView (cache.get ⟨i, hc⟩) := by
      simp [List.get_eq_getElem]
    rw [hget]
    simp only [List.get_eq_getElem] at hn hl him ⊢
    simp [projectView, hn, hl, him]

/-- Witness for C8 at the five-record sample cache. -/
theorem get_characters_spec_witness :
    (∀ c ∈ demoChars, c.name.isSome = true ∧
      (c.location.bind NamedRef.name).isSome = true ∧
      c.image.isSome = true) ∧
    (∃ views : List CharacterView,
      get_characters demoChars = .ok (⟨views.length, views⟩, 200) ∧
      views.length = demoChars.length ∧
      ∀ (i : Nat) (hi : i < views.length) (hc : i < demoChars.length),
        some (views.get ⟨i, hi⟩).name = (demoChars.get ⟨i, hc⟩).name ∧
        some (views.get ⟨i, hi⟩).location =
          ((demoChars.get ⟨i, hc⟩).location).bind NamedRef.name ∧
        some (views.get ⟨i, hi⟩).image =
          (demoChars.get ⟨i, hc⟩).image) :=
  ⟨by decide, get_characters_spec demoChars (by decide)⟩

/-- C9: for records with `name`, `location.name` and `image` present,
`save_to_csv` produces the header row `Name, Location, Image` followed
by exactly one data row per record, in order, whose three cells are
exactly the record's name, location name and image; the prior content of
the destination file does not influence the output (mode "w"
overwrites). -/
theorem save_to_csv_spec (existing : List (List String))
    (characters : List Character)
    (h : ∀ c ∈ characters, c.name.isSome = true ∧
      (c.location.bind NamedRef.name).isSome = true ∧
      c.image.isSome = true) :
    ∃ rows : List (List String),
      save_to_csv existing characters =
        .ok (["Name", "Location", "Image"] :: rows) ∧
      rows.length = characters.length ∧
      (∀ (i : Nat) (hi : i < rows.length) (hc : i < characters.length),
        ∃ nm loc img, rows.get ⟨i, hi⟩ = [nm, loc, img] ∧
          (characters.get ⟨i, hc⟩).name = some nm ∧
          ((characters.get ⟨i, hc⟩).location).bind NamedRef.name =
            some loc ∧
          (characters.get ⟨i, hc⟩).image = some img) ∧
      (∀ prior : List (List String),
        save_to_csv prior characters =
          save_to_csv existing characters) := by
  refine ⟨characters.map csvRowD, ?_, by simp, ?_, fun prior => rfl⟩
  · have hm := mapM_ok csvRow csvRowD characters
      fun c hc => csvRow_ok c (h c hc)
    unfold save_to_csv
    rw [hm]
    rfl
  · intro i hi hc
    have hmem : characters.get ⟨i, hc⟩ ∈ characters :=
      List.get_mem characters i hc
    obtain ⟨h1, h2, h3⟩ := h _ hmem
    obtain ⟨n, hn⟩ := Option.isSome_iff_exists.mp h1
    obtain ⟨l, hl⟩ := Option.isSome_iff_exists.mp h2
    obtain ⟨im, him⟩ := Option.isSome_iff_exists.mp h3
    refine ⟨n, l, im, ?_, hn, hl, him⟩
    have hget : (characters.map csvRowD).get ⟨i, hi⟩ =
        csvRowD (characters.get ⟨i, hc⟩) := by
      simp [List.get_eq_getElem]
    rw [hget]
    simp only [List.get_eq_getElem] at hn hl him
    simp [csvRowD, hn, hl, him]

/-- Witness for C9 at the five-record sample cache over a non-empty
existing file. -/
theorem save_to_csv_spec_witness :
    (∀ c ∈ demoChars, c.name.isSome = true ∧
      (c.location.bind NamedRef.name).isSome = true ∧
      c.image.isSome = true) ∧
    (∃ rows : List (List String),
      save_to_csv [["stale"]] demoChars =
        .ok (["Name", "Location", "Image"] :: rows) ∧
      rows.length = demoChars.length ∧
      (∀ (i : Nat) (hi : i < rows.length) (hc : i < demoChars.length),
        ∃ nm loc img, rows.get ⟨i, hi⟩ = [nm, loc, img] ∧
          (demoChars.get ⟨i, hc⟩).name = some nm ∧
          ((demoChars.get ⟨i, hc⟩).location).bind NamedRef.name =
            some loc ∧
          (demoChars.get ⟨i, hc⟩).image = some img) ∧
      (∀ prior : List (List String),
        save_to_csv prior demoChars = save_to_csv [["stale"]] demoChars)) :=
  ⟨by decide, save_to_csv_spec [["stale"]] demoChars (by decide)⟩

end RickMorty
